import Mathlib

/-!
Verification development for the visor-archivos repository: a resumable
Dropbox inventory enumerator (dropbox_inv.py), a hybrid continuation script
(create_dropbox_inventory/create_inventory.py) and a reconciliation verifier
(verify_inventory.py).  Each definition below is a shallow embedding of the
corresponding Python function; doc comments name the embedded source symbol.
Machine integers of the source are modelled as Nat (all byte counts and
counters in the scripts are non-negative and unbounded in Python); wall-clock
timestamps and floating point renderings (size_mb, total_size_gb, the
generated field) are outside the model and omitted from the embedded records.
-/

/-! ## Python string primitives used by the scripts -/

/-- Helper for pySplit: accumulator-based split of a character list. -/
def splitCharsAux (sep : Char) : List Char → List Char → List (List Char)
  | [], acc => [acc.reverse]
  | c :: cs, acc =>
      if c = sep then acc.reverse :: splitCharsAux sep cs []
      else splitCharsAux sep cs (c :: acc)

/-- Embedding of the Python expression s.split(sep) for a one-character
separator: splits on every occurrence, keeping empty pieces, and yields
a single empty piece on the empty string. -/
def pySplit (sep : Char) (s : String) : List String :=
  (splitCharsAux sep s.data []).map String.mk

/-- Embedding of the Python expression sep.join(parts) for separator "/". -/
def joinSlash : List String → String
  | [] => ""
  | [s] => s
  | s :: ss => s ++ "/" ++ joinSlash ss

/-- Index of the last occurrence of a character in a list, if any. -/
def lastIndexOfAux (c : Char) : List Char → Nat → Option Nat → Option Nat
  | [], _, best => best
  | x :: xs, i, best =>
      lastIndexOfAux c xs (i + 1) (if x = c then some i else best)

/-- Embedding of pathlib suffix on a bare file name (the scripts apply it to
entry.name, which contains no slash): the substring from the last dot on,
provided that dot is neither the first nor the last character; otherwise
the empty string. -/
def pySuffix (name : String) : String :=
  let cs := name.data
  match lastIndexOfAux '.' cs 0 none with
  | some i => if 0 < i && i < cs.length - 1 then String.mk (cs.drop i) else ""
  | none => ""

/-- Embedding of the Python expression s.lower() restricted to ASCII, which
is how the scripts use it (file extensions). -/
def pyLower (s : String) : String :=
  String.mk (s.data.map Char.toLower)

/-! ## Data model: API metadata records and inventory entries -/

/-- One record of a Dropbox listing page, as consumed by _process_entry in
both scripts: FileMetadata, FolderMetadata, or any other metadata kind
(for example DeletedMetadata), which _process_entry ignores. -/
inductive Metadata where
  | file (name path_display path_lower : String) (size : Nat)
      (server_modified : Option String) (content_hash : Option String)
      (rev : String) (dropbox_id : String)
  | folder (name path_display path_lower : String) (dropbox_id : String)
  | other
deriving DecidableEq

/-- One inventory entry dict as built by _process_entry (identical code in
dropbox_inv.py lines 185-222 and create_inventory.py lines 124-159).
The derived float field size_mb and nothing else is omitted. -/
structure Entry where
  type : String
  name : String
  path : String
  path_lower : String
  extension : Option String
  size_bytes : Nat
  modified : Option String
  content_hash : Option String
  revision : Option String
  dropbox_id : String
  folder_depth : Nat
  parent_folder : String
deriving DecidableEq

/-- Embedding of _process_entry (shared verbatim by both scripts): converts
an API metadata record into an inventory entry, or none for unrecognized
metadata kinds.  folder_depth is the length of path_display.split('/')
minus one; parent_folder is '/'.join(parts[:-1]) or '/'. -/
def processEntry : Metadata → Option Entry
  | .file name pd pl sz sm ch rev did =>
      let parts := pySplit '/' pd
      let ext := pyLower (pySuffix name)
      some
        { type := "file"
          name := name
          path := pd
          path_lower := pl
          extension := if ext = "" then none else some ext
          size_bytes := sz
          modified := sm
          content_hash := ch
          revision := some rev
          dropbox_id := did
          folder_depth := parts.length - 1
          parent_folder :=
            let pp := joinSlash parts.dropLast
            if pp = "" then "/" else pp }
  | .folder name pd pl did =>
      let parts := pySplit '/' pd
      some
        { type := "folder"
          name := name
          path := pd
          path_lower := pl
          extension := none
          size_bytes := 0
          modified := none
          content_hash := none
          revision := none
          dropbox_id := did
          folder_depth := parts.length - 1
          parent_folder :=
            let pp := joinSlash parts.dropLast
            if pp = "" then "/" else pp }
  | .other => none

/-! ## Summary computation (DropboxInventory._save_inventory lines 140-163,
mirrored by HybridInventory._save_all lines 251-269) -/

/-- Embedding of the Python expression entry.get('extension', '(none)') or
'(none)': a missing or falsy extension falls into the sentinel bucket. -/
def extOf (e : Entry) : String :=
  match e.extension with
  | some s => if s = "" then "(none)" else s
  | none => "(none)"

/-- Embedding of the Python dict update d[k] = d.get(k, 0) + n on an
insertion-ordered association list: an existing key is updated in place,
a new key is appended at the end. -/
def bump : List (String × Nat) → String → Nat → List (String × Nat)
  | [], k, n => [(k, n)]
  | (k', v) :: rest, k, n =>
      if k' = k then (k', v + n) :: rest else (k', v) :: bump rest k n

/-- The summary block written by _save_inventory / _save_all, as a pure
function of the current entries, the has_more flag and the API call
counter.  The generated timestamp and the rounded GB floats are wall
clock and float rendering, outside the model; total_size_bytes and the
per-extension byte sums are kept exact. -/
structure Summary where
  status : String
  total_entries : Nat
  total_files : Nat
  total_folders : Nat
  total_size_bytes : Nat
  api_calls_made : Nat
  file_types : List (String × Nat)
  size_by_type : List (String × Nat)
deriving DecidableEq

/-- Embedding of the summary computation in _save_inventory: filter the
files, sum their sizes, count entries by lower-cased extension, and take
folders as total minus files. -/
def mkSummary (entries : List Entry) (has_more : Bool) (api_calls : Nat) :
    Summary :=
  let files_only := entries.filter fun e => e.type == "file"
  let total_size := (files_only.map fun e => e.size_bytes).sum
  let ext_counts := files_only.foldl (fun m e => bump m (extOf e) 1) []
  let ext_sizes := files_only.foldl (fun m e => bump m (extOf e) e.size_bytes) []
  { status := if !has_more then "complete" else "in_progress"
    total_entries := entries.length
    total_files := files_only.length
    total_folders := entries.length - files_only.length
    total_size_bytes := total_size
    api_calls_made := api_calls
    file_types := ext_counts
    size_by_type := ext_sizes }

/-! ## Legacy enumerator (DropboxInventory, dropbox_inv.py)

The paginated listing API is modelled as the list of pages it would serve
in order; the opaque continuation cursor returned together with page i is
represented by the page index i + 1, so that files_list_folder_continue on
a saved cursor c serves exactly the pages from index c on.  This is the
standard abstraction of a strictly sequential cursor-driven API. -/

/-- In-memory mutable state of DropboxInventory (the fields of __init__
that the pagination loop and checkpointing touch).  entries_since_save and
the timing fields drive only the time-based save cadence, which is
modelled separately by a tick oracle. -/
structure LegacyState where
  entries : List Entry
  folders_seen : List String
  api_calls : Nat
  cursor : Option Nat
  has_more : Bool
deriving DecidableEq

/-- The state set up by DropboxInventory.__init__. -/
def legacyInit : LegacyState :=
  { entries := [], folders_seen := [], api_calls := 0,
    cursor := none, has_more := true }

/-- Embedding of adding one element to a Python set held in insertion
order: a no-op when already present. -/
def setAdd (l : List String) (x : String) : List String :=
  if l.contains x then l else l ++ [x]

/-- One iteration of the for-entry loop in DropboxInventory.run: the
folders_seen side effect of _process_entry, then the unconditional append
of the processed entry (the legacy script performs no deduplication). -/
def legacyProcess (st : LegacyState) (m : Metadata) : LegacyState :=
  let st :=
    match m with
    | .folder _ _ pl _ => { st with folders_seen := setAdd st.folders_seen pl }
    | _ => st
  match processEntry m with
  | some e => { st with entries := st.entries ++ [e] }
  | none => st

/-- Processing of all records of one listing page. -/
def legacyPage (st : LegacyState) (es : List Metadata) : LegacyState :=
  es.foldl legacyProcess st

/-- One successful page fetch in DropboxInventory.run: the API call counter
increment inside _api_call, the per-entry processing, and the adoption of
the returned cursor (index i + 1 after page i) and has_more flag. -/
def stepPage (st : LegacyState) (i : Nat) (es : List Metadata) (more : Bool) :
    LegacyState :=
  let st' := legacyPage { st with api_calls := st.api_calls + 1 } es
  { st' with cursor := some (i + 1), has_more := more }

/-- The while has_more pagination loop of DropboxInventory.run (lines
285-306), error-free view: rest holds the pages the API still serves from
cursor position i, and the has_more flag served with a page is false
exactly on the last page.  When has_more is already false the loop body
never runs. -/
def runLoop (st : LegacyState) (i : Nat) : List (List Metadata) → LegacyState
  | [] => st
  | es :: rest =>
      if st.has_more then runLoop (stepPage st i es (!rest.isEmpty)) (i + 1) rest
      else st

/-- The checkpoint dict written by DropboxInventory._save_checkpoint (lines
103-115); the timestamp field is wall clock and omitted. -/
structure LegacyCheckpoint where
  cursor : Option Nat
  has_more : Bool
  entries_count : Nat
  api_calls : Nat
  folders_seen : List String
deriving DecidableEq

/-- The inventory artifact written by _save_inventory: summary plus the
full entry list. -/
structure Inventory where
  summary : Summary
  entries : List Entry
deriving DecidableEq

/-- Embedding of DropboxInventory._save_checkpoint: the checkpoint is a
snapshot of the live fields. -/
def saveCheckpoint (st : LegacyState) : LegacyCheckpoint :=
  { cursor := st.cursor, has_more := st.has_more,
    entries_count := st.entries.length, api_calls := st.api_calls,
    folders_seen := st.folders_seen }

/-- Embedding of DropboxInventory._save_inventory: the summary is
recomputed from the current entries and the artifact carries the entries
themselves. -/
def saveInventory (st : LegacyState) : Inventory :=
  { summary := mkSummary st.entries st.has_more st.api_calls,
    entries := st.entries }

/-- Embedding of DropboxInventory._load_checkpoint (lines 117-136): when a
checkpoint file is present, entries are taken from the inventory file when
that is present, then cursor, has_more, api_calls and folders_seen are
adopted from the checkpoint unconditionally and True is returned; no field
combination is validated.  A missing checkpoint file returns False and
leaves the state alone. -/
def loadCheckpoint (cp : Option LegacyCheckpoint) (inv : Option Inventory)
    (st : LegacyState) : Bool × LegacyState :=
  match cp with
  | none => (false, st)
  | some c =>
      let st :=
        match inv with
        | some i => { st with entries := i.entries }
        | none => st
      (true,
        { st with
          cursor := c.cursor
          has_more := c.has_more
          api_calls := c.api_calls
          folders_seen := c.folders_seen })

/-- Embedding of DropboxInventory.run (lines 246-306) up to the end of the
pagination loop, error-free view.  cp and inv stand for the contents of
the checkpoint and inventory files; pages are the pages the API serves in
order.  With resume requested, a loaded checkpoint and a non-null cursor,
pagination continues from the cursor; otherwise the state is reset (the
fresh branch does not reset folders_seen, faithfully to the source) and
the root listing serves page 0 before the loop. -/
def legacyRun (resume : Bool) (cp : Option LegacyCheckpoint)
    (inv : Option Inventory) (pages : List (List Metadata)) : LegacyState :=
  let r := if resume then loadCheckpoint cp inv legacyInit else (false, legacyInit)
  let st := r.2
  if resume && r.1 && st.cursor.isSome then
    let c := st.cursor.getD 0
    runLoop st c (pages.drop c)
  else
    let st :=
      { st with
        entries := []
        cursor := none
        has_more := true
        api_calls := 0 }
    match pages with
    | [] => st
    | first :: rest => runLoop (stepPage st 0 first (!rest.isEmpty)) 1 rest

/-- The completion block of DropboxInventory.run (lines 309-316): on a
normal loop exit the script forces has_more to False before the final
save (the checkpoint file deletion is a file-system effect modelled in the
save-discipline section). -/
def legacyRunComplete (resume : Bool) (cp : Option LegacyCheckpoint)
    (inv : Option Inventory) (pages : List (List Metadata)) : LegacyState :=
  let st := legacyRun resume cp inv pages
  { st with has_more := false }

/-- The page served at index n (total function for the model; the default
is never reached under the well-formedness hypotheses of the theorems). -/
def pagesAt (pages : List (List Metadata)) (n : Nat) : List Metadata :=
  pages.getD n []

/-- The in-memory state of an uninterrupted legacy run right after n pages
have been processed: page 0 from the root listing, pages 1 to n - 1 from
continuation calls.  This is the state an interruption after n pages would
hand to _save_checkpoint and _save_inventory. -/
def stateAfterN (pages : List (List Metadata)) : Nat → LegacyState
  | 0 => legacyInit
  | n + 1 =>
      stepPage (stateAfterN pages n) n (pagesAt pages n)
        (decide (n + 1 < pages.length))

/-! ## Retry policy (_api_call, identical logic in dropbox_inv.py lines
82-101 and create_inventory.py lines 106-122) -/

/-- Outcome of a single attempt of the wrapped remote operation, as
classified by the except clauses of _api_call: success, RateLimitError
with its optional suggested backoff, InternalServerError, or ApiError
(the permanent 4xx client-error class, which the SDK keeps disjoint from
the two retryable HttpError subclasses). -/
inductive Outcome where
  | success
  | rateLimited (backoff : Option Nat)
  | serverError
  | apiError
deriving DecidableEq

/-- The outcomes _api_call reacts to by sleeping and retrying. -/
def isRetryable : Outcome → Bool
  | .rateLimited _ => true
  | .serverError => true
  | _ => false

/-- How a call to _api_call terminates. -/
inductive CallOutcome where
  | ok
  | apiFatal
  | maxRetries
deriving DecidableEq

/-- Observable trace of one _api_call invocation: how it ended, how many
attempts were made (each incrementing the api_calls counter), and the
sequence of backoff sleeps in seconds. -/
structure CallTrace where
  result : CallOutcome
  attempts : Nat
  sleeps : List Nat
deriving DecidableEq

/-- Embedding of the rate-limit wait choice e.backoff if e.backoff else
2 ** attempt: a missing or zero (falsy) suggested backoff falls back to
exponential backoff. -/
def rateLimitWait (backoff : Option Nat) (attempt : Nat) : Nat :=
  match backoff with
  | some w => if w = 0 then 2 ^ attempt else w
  | none => 2 ^ attempt

/-- The for attempt in range(max_retries) loop of _api_call.  op gives the
outcome of each attempt by index; fuel is the number of attempts still
budgeted. -/
def apiCallAux (op : Nat → Outcome) : Nat → Nat → Nat → List Nat → CallTrace
  | _, 0, attempts, sleeps => { result := .maxRetries, attempts := attempts, sleeps := sleeps }
  | attempt, fuel + 1, attempts, sleeps =>
      match op attempt with
      | .success => { result := .ok, attempts := attempts + 1, sleeps := sleeps }
      | .rateLimited b =>
          apiCallAux op (attempt + 1) fuel (attempts + 1)
            (sleeps ++ [rateLimitWait b attempt])
      | .serverError =>
          apiCallAux op (attempt + 1) fuel (attempts + 1) (sleeps ++ [2 ^ attempt])
      | .apiError => { result := .apiFatal, attempts := attempts + 1, sleeps := sleeps }

/-- Embedding of _api_call with its fixed budget max_retries = 5. -/
def apiCall (op : Nat → Outcome) : CallTrace :=
  apiCallAux op 0 5 0 []

/-! ## Runs with API failures and save events

For the claims about what happens when a page fetch fails fatally, the
pagination loops are modelled over a list of fetch steps: each continue
call either returns a page (with the attempts _api_call spent on it and
the served has_more flag) or raises a fatal error after some attempts.
Save points are recorded as events; the time-driven save cadence of the
scripts is abstracted as a tick oracle indexed by loop iteration. -/

/-- Result of one pagination fetch through _api_call. -/
inductive FetchStep where
  | ok (attemptsMade : Nat) (page : List Metadata) (more : Bool)
  | fail (attemptsMade : Nat)
deriving DecidableEq

/-- Durable save actions a run can perform. -/
inductive RunEvent where
  | savedCheckpoint
  | savedInventory
deriving DecidableEq

/-- The pagination loop of DropboxInventory.run with failures surfaced:
the loop body has no try/except, so a fatal error out of _api_call
propagates immediately out of the loop (Except.error), performing no
further action; on the periodic tick the loop saves checkpoint then
inventory. -/
def legacyLoopE (tick : Nat → Bool) (st : LegacyState) (i : Nat) :
    List FetchStep →
      Except (LegacyState × List RunEvent) (LegacyState × List RunEvent)
  | [] => .ok (st, [])
  | s :: rest =>
      if st.has_more then
        match s with
        | .fail n => .error ({ st with api_calls := st.api_calls + n }, [])
        | .ok n page more =>
            let st' := legacyPage { st with api_calls := st.api_calls + n } page
            let st' := { st' with cursor := some (i + 1), has_more := more }
            let evs :=
              if tick i then [RunEvent.savedCheckpoint, RunEvent.savedInventory]
              else []
            match legacyLoopE tick st' (i + 1) rest with
            | .ok (stf, e2) => .ok (stf, evs ++ e2)
            | .error (stf, e2) => .error (stf, evs ++ e2)
      else .ok (st, [])

/-- DropboxInventory.run around its pagination loop, failure view: on a
normal exit the completion block forces has_more to False and saves
checkpoint and inventory; an exception from the loop propagates out of
run with no save on the way (there is no handler between the loop and the
process exit). -/
def legacyRunE (tick : Nat → Bool) (st : LegacyState) (steps : List FetchStep) :
    Except (LegacyState × List RunEvent) (LegacyState × List RunEvent) :=
  match legacyLoopE tick st 0 steps with
  | .ok (stf, evs) =>
      .ok ({ stf with has_more := false },
        evs ++ [RunEvent.savedCheckpoint, RunEvent.savedInventory])
  | .error e => .error e

/-! ## Hybrid script (HybridInventory, create_inventory.py) -/

/-- In-memory state of HybridInventory: the deduplicating store (entries
in insertion order plus the path-keyed dict) and the continuation
fields. -/
structure HybridState where
  entries : List Entry
  entries_by_path : List (String × Entry)
  cursor : Option Nat
  has_more : Bool
  api_calls : Nat
deriving DecidableEq

/-- The state set up by HybridInventory.__init__. -/
def hybridInit : HybridState :=
  { entries := [], entries_by_path := [], cursor := none,
    has_more := true, api_calls := 0 }

/-- Embedding of HybridInventory._add_entry (lines 161-166): a None entry
or an already-present path returns False and changes nothing; a new path
appends the entry to both the list and the dict and returns True. -/
def addEntry (st : HybridState) (e : Option Entry) : Bool × HybridState :=
  match e with
  | none => (false, st)
  | some e =>
      match st.entries_by_path.lookup e.path with
      | some _ => (false, st)
      | none =>
          (true,
            { st with
              entries := st.entries ++ [e]
              entries_by_path := st.entries_by_path ++ [(e.path, e)] })

/-- Inserting a list of already-built entry dicts one by one through
_add_entry, as _load_old_progress does. -/
def addEntries (st : HybridState) (es : List Entry) : HybridState :=
  es.foldl (fun st e => (addEntry st (some e)).2) st

/-- Processing one listing page in _continue_recursive: each record is
converted by _process_entry and inserted through _add_entry. -/
def hybridPage (st : HybridState) (page : List Metadata) : HybridState :=
  page.foldl (fun st m => (addEntry st (processEntry m)).2) st

/-- The pagination loop of HybridInventory._continue_recursive (lines
312-345): the loop body is wrapped in try/except, so a fatal fetch error
is logged and breaks the loop instead of propagating; the periodic tick
triggers _save_all (checkpoint and inventory in one call). -/
def hybridLoopE (tick : Nat → Bool) (st : HybridState) (i : Nat) :
    List FetchStep → HybridState × List RunEvent
  | [] => (st, [])
  | s :: rest =>
      if st.has_more then
        match s with
        | .fail n => ({ st with api_calls := st.api_calls + n }, [])
        | .ok n page more =>
            let st' := hybridPage { st with api_calls := st.api_calls + n } page
            let st' := { st' with cursor := some (i + 1), has_more := more }
            let evs :=
              if tick i then [RunEvent.savedCheckpoint, RunEvent.savedInventory]
              else []
            let r := hybridLoopE tick st' (i + 1) rest
            (r.1, evs ++ r.2)
      else (st, [])

/-- HybridInventory.run around _continue_recursive: after the loop returns
(normally or through the except-break), is_running is still True, so the
final _save_all always executes before the run ends. -/
def hybridRunResumed (tick : Nat → Bool) (st : HybridState)
    (steps : List FetchStep) : HybridState × List RunEvent :=
  let r := hybridLoopE tick st 0 steps
  (r.1, r.2 ++ [RunEvent.savedCheckpoint, RunEvent.savedInventory])

/-- The checkpoint dict written by HybridInventory._save_all (lines
240-248); timestamp omitted as wall clock. -/
structure HCheckpoint where
  cursor : Option Nat
  has_more : Bool
  api_calls : Nat
  entries_count : Nat
deriving DecidableEq

/-- Embedding of HybridInventory._load_old_progress (lines 168-235).
Inputs stand for the parsed contents of the four files it looks at, in
the order the code consults them: the legacy checkpoint (cursor and
has_more adopted, its api_calls only printed), the legacy inventory
(entries inserted through _add_entry), then the hybrid checkpoint, whose
cursor, has_more and api_calls are assigned last and therefore take
priority, and finally the hybrid inventory, for which the store is reset
to empty before its entries are inserted. -/
def loadOldProgress (oldCp : Option LegacyCheckpoint)
    (oldInv : Option (List Entry)) (ownCp : Option HCheckpoint)
    (ownInv : Option (List Entry)) (st : HybridState) : Bool × HybridState :=
  let r :=
    match oldCp with
    | some c => (true, { st with cursor := c.cursor, has_more := c.has_more })
    | none => (false, st)
  let r :=
    match oldInv with
    | some es => (true, addEntries r.2 es)
    | none => r
  match ownCp with
  | some c =>
      let st :=
        { r.2 with
          cursor := c.cursor
          has_more := c.has_more
          api_calls := c.api_calls }
      let st :=
        match ownInv with
        | some es => addEntries { st with entries := [], entries_by_path := [] } es
        | none => st
      (true, st)
  | none => r

/-! ## File-save discipline (checkpoint and inventory persistence)

The save functions of both scripts are straight-line sequences of file
operations; the salient structure for the atomicity claim is which paths
they open for truncating write and whether any rename publishes a
temporary file into the visible target.  Each save function is embedded
as the list of operations it performs, in order. -/

/-- File-system operations the save and cleanup code performs.  An
openTruncWrite on a path is the Python open(path, "w") followed by the
dump and the close: it truncates the visible target immediately and fills
it incrementally. -/
inductive FsOp where
  | openTruncWrite (path : String)
  | rename (src tgt : String)
  | unlink (path : String)
deriving DecidableEq

/-- Target path of the legacy checkpoint file. -/
def checkpointPath : String := "inventory_output/checkpoint.json"

/-- Target path of the legacy inventory JSON artifact. -/
def inventoryJsonPath : String := "inventory_output/inventory.json"

/-- Target path of the legacy inventory CSV artifact. -/
def inventoryCsvPath : String := "inventory_output/inventory.csv"

/-- Target path of the hybrid checkpoint file. -/
def hybridCheckpointPath : String := "inventory_output_hybrid/checkpoint.json"

/-- Target path of the hybrid inventory JSON artifact. -/
def hybridInventoryJsonPath : String := "inventory_output_hybrid/inventory.json"

/-- Target path of the hybrid inventory CSV artifact. -/
def hybridInventoryCsvPath : String := "inventory_output_hybrid/inventory.csv"

/-- Operations of DropboxInventory._save_checkpoint (lines 103-115): one
truncating write straight to the checkpoint path. -/
def saveCheckpointOps : List FsOp :=
  [.openTruncWrite checkpointPath]

/-- Operations of DropboxInventory._save_inventory (lines 138-183): a
truncating write straight to the JSON path, then, when there are entries,
one straight to the CSV path. -/
def saveInventoryOps (hasEntries : Bool) : List FsOp :=
  [.openTruncWrite inventoryJsonPath] ++
    (if hasEntries then [.openTruncWrite inventoryCsvPath] else [])

/-- Operations of HybridInventory._save_all (lines 237-283): truncating
writes straight to the hybrid checkpoint and JSON paths, then CSV when
there are entries. -/
def saveAllOps (hasEntries : Bool) : List FsOp :=
  [.openTruncWrite hybridCheckpointPath, .openTruncWrite hybridInventoryJsonPath] ++
    (if hasEntries then [.openTruncWrite hybridInventoryCsvPath] else [])

/-- Whether an operation sequence opens the visible target itself for
truncating write (so a crash mid-write leaves a truncated or partly
written target). -/
def writesDirectly (ops : List FsOp) (target : String) : Bool :=
  ops.any fun op =>
    match op with
    | .openTruncWrite p => p == target
    | _ => false

/-- Whether an operation sequence publishes the target via a rename. -/
def renamesInto (ops : List FsOp) (target : String) : Bool :=
  ops.any fun op =>
    match op with
    | .rename _ t => t == target
    | _ => false

/-- The write-then-rename discipline for a target: the sequence never
opens the visible target for truncating write and installs it only by a
rename of a complete temporary file. -/
def atomicReplace (ops : List FsOp) (target : String) : Bool :=
  renamesInto ops target && !writesDirectly ops target

/-! ## Reconciliation verifier (verify_inventory.py main) -/

/-- Embedding of get_inventory_folders_at_depth (lines 40-42). -/
def foldersAtDepth (entries : List Entry) (depth : Nat) : List Entry :=
  entries.filter fun e => e.type == "folder" && e.folder_depth == depth

/-- The root folder paths the inventory records, as main computes them:
paths of folder entries at depth 1 (lines 124-126). -/
def invRootPaths (entries : List Entry) : List String :=
  (foldersAtDepth entries 1).map fun e => e.path

/-- Embedding of the root-set difference api_set - inv_set (line 134):
live root folder paths absent from the inventory. -/
def rootSetMissing (apiRootFolders : List String) (entries : List Entry) :
    List String :=
  apiRootFolders.filter fun p => !(invRootPaths entries).contains p

/-- Embedding of the root-set difference inv_set - api_set (line 135):
inventory root folder paths absent from the live listing, printed as
possible deletions and never added to the issue list. -/
def rootSetExtra (apiRootFolders : List String) (entries : List Entry) :
    List String :=
  (invRootPaths entries).filter fun p => !apiRootFolders.contains p

/-- Embedding of the final-verdict issue list of main (lines 217-219):
one issue is appended exactly when some live root folder is missing from
the inventory; nothing else feeds the list.  The message text itself is
display formatting, kept abstract. -/
def verifierIssues (apiRootFolders : List String) (entries : List Entry) :
    List String :=
  if (rootSetMissing apiRootFolders entries).isEmpty then []
  else ["Missing root folders"]

/-! ## Helper lemmas -/

/-- A pagination loop whose state already reports no further pages never
runs its body. -/
theorem runLoop_of_not_hasMore (st : LegacyState) (i : Nat)
    (l : List (List Metadata)) (h : st.has_more = false) : runLoop st i l = st := by
  cases l <;> simp [runLoop, h]

/-- Loading the checkpoint and inventory saved from a state restores that
state exactly. -/
theorem loadCheckpoint_roundtrip (st : LegacyState) :
    loadCheckpoint (some (saveCheckpoint st)) (some (saveInventory st)) legacyInit
      = (true, st) := rfl

/-- Folding the running file-size total is the sum of sizes over the file
entries. -/
theorem foldl_size_file (l : List Entry) (a : Nat) :
    l.foldl (fun a e => if e.type = "file" then a + e.size_bytes else a) a
      = a + ((l.filter fun e => e.type == "file").map fun e => e.size_bytes).sum := by
  induction l generalizing a with
  | nil => simp
  | cons e t ih =>
      by_cases h : e.type = "file"
      · simp [h, ih, Nat.add_assoc]
      · simp [h, ih]

/-- Dict insertion through _add_entry leaves the continuation fields
alone. -/
theorem addEntry_control (st : HybridState) (e : Option Entry) :
    (addEntry st e).2.cursor = st.cursor ∧ (addEntry st e).2.has_more = st.has_more ∧
      (addEntry st e).2.api_calls = st.api_calls := by
  cases e with
  | none => exact ⟨rfl, rfl, rfl⟩
  | some e => cases h : st.entries_by_path.lookup e.path <;> simp [addEntry, h]

/-- Bulk insertion through _add_entry leaves the continuation fields
alone. -/
theorem addEntries_control (es : List Entry) : ∀ st : HybridState,
    (addEntries st es).cursor = st.cursor ∧ (addEntries st es).has_more = st.has_more ∧
      (addEntries st es).api_calls = st.api_calls := by
  induction es with
  | nil => intro st; exact ⟨rfl, rfl, rfl⟩
  | cons e t ih =>
      intro st
      have hstep : addEntries st (e :: t) = addEntries (addEntry st (some e)).2 t := rfl
      have h1 := addEntry_control st (some e)
      have h2 := ih (addEntry st (some e)).2
      rw [hstep]
      exact ⟨h2.1.trans h1.1, h2.2.1.trans h1.2.1, h2.2.2.trans h1.2.2⟩

/-- The store component computed by _add_entry depends only on the store
component of its input. -/
theorem addEntry_store_eq (st st' : HybridState) (e : Option Entry)
    (he : st.entries = st'.entries)
    (hb : st.entries_by_path = st'.entries_by_path) :
    (addEntry st e).1 = (addEntry st' e).1 ∧
      (addEntry st e).2.entries = (addEntry st' e).2.entries ∧
      (addEntry st e).2.entries_by_path = (addEntry st' e).2.entries_by_path := by
  cases e with
  | none => exact ⟨rfl, he, hb⟩
  | some e =>
      simp only [addEntry, hb, he]
      cases st'.entries_by_path.lookup e.path with
      | some v => exact ⟨rfl, he, hb⟩
      | none => exact ⟨rfl, rfl, rfl⟩

/-- The store component computed by bulk insertion depends only on the
store component of its input. -/
theorem addEntries_store_eq (es : List Entry) : ∀ st st' : HybridState,
    st.entries = st'.entries → st.entries_by_path = st'.entries_by_path →
      (addEntries st es).entries = (addEntries st' es).entries := by
  induction es with
  | nil => intro st st' he _; simpa [addEntries] using he
  | cons e t ih =>
      intro st st' he hb
      have h := addEntry_store_eq st st' (some e) he hb
      simpa [addEntries] using
        ih (addEntry st (some e)).2 (addEntry st' (some e)).2 h.2.1 h.2.2

/-! ## Claim theorems -/

/-- Claim C3 counterexample: at the concrete persisted checkpoint with
has_more false and a non-null cursor, _load_checkpoint does not reject:
it returns success and adopts both contradictory fields unchanged, so the
claim that load rejects such a checkpoint is false on this input. -/
theorem load_accepts_contradictory_checkpoint :
    (loadCheckpoint
        (some { cursor := some 7, has_more := false, entries_count := 3,
                api_calls := 9, folders_seen := [] })
        none legacyInit).1 = true ∧
    (loadCheckpoint
        (some { cursor := some 7, has_more := false, entries_count := 3,
                api_calls := 9, folders_seen := [] })
        none legacyInit).2.cursor = some 7 ∧
    (loadCheckpoint
        (some { cursor := some 7, has_more := false, entries_count := 3,
                api_calls := 9, folders_seen := [] })
        none legacyInit).2.has_more = false := by
  decide

/-- Claim C3 (amended): _load_checkpoint performs no validation; a
checkpoint with has_more false and a non-null cursor is loaded
successfully with both fields adopted unchanged, and the subsequent run
resumes with it, performs no pagination call, and finishes with exactly
the entries of the saved inventory. -/
theorem load_adopts_contradictory_checkpoint :
    ∀ (cur ec ac : Nat) (fs : List String) (inv : Inventory)
      (pages : List (List Metadata)),
      legacyRun true
          (some { cursor := some cur, has_more := false, entries_count := ec,
                  api_calls := ac, folders_seen := fs })
          (some inv) pages
        = { entries := inv.entries, folders_seen := fs, api_calls := ac,
            cursor := some cur, has_more := false } := by
  intro cur ec ac fs inv pages
  exact runLoop_of_not_hasMore _ cur (pages.drop cur) rfl

/-- Claim C4 counterexample: the checkpoint save of dropbox_inv.py opens
the visible checkpoint path itself for truncating write and performs no
rename, so it does not follow a write-then-rename discipline and a crash
mid-write can leave a truncated checkpoint visible to the next load. -/
theorem checkpoint_save_not_atomic :
    atomicReplace saveCheckpointOps checkpointPath = false ∧
    writesDirectly saveCheckpointOps checkpointPath = true ∧
    renamesInto saveCheckpointOps checkpointPath = false := by
  decide

/-- Claim C4 (amended): every save of either script writes its checkpoint
and inventory targets directly in place with a truncating open and uses
no rename at all, so none of the saves is all-or-nothing. -/
theorem saves_write_in_place :
    ∀ b : Bool,
      writesDirectly saveCheckpointOps checkpointPath = true ∧
      renamesInto saveCheckpointOps checkpointPath = false ∧
      writesDirectly (saveInventoryOps b) inventoryJsonPath = true ∧
      renamesInto (saveInventoryOps b) inventoryJsonPath = false ∧
      writesDirectly (saveAllOps b) hybridCheckpointPath = true ∧
      renamesInto (saveAllOps b) hybridCheckpointPath = false ∧
      writesDirectly (saveAllOps b) hybridInventoryJsonPath = true ∧
      renamesInto (saveAllOps b) hybridInventoryJsonPath = false := by
  decide

/-- Claim C5: the summary is a pure function of the current entries (with
the has_more flag and call counter), its total_size_bytes equals the sum
of size_bytes over exactly the entries of file kind, and folders plus
files equals total entries. -/
theorem aggregate_correctness :
    ∀ (entries : List Entry) (hm : Bool) (ac : Nat),
      (mkSummary entries hm ac).total_size_bytes
          = entries.foldl (fun a e => if e.type = "file" then a + e.size_bytes else a) 0 ∧
      (mkSummary entries hm ac).total_folders + (mkSummary entries hm ac).total_files
          = (mkSummary entries hm ac).total_entries := by
  intro entries hm ac
  constructor
  · rw [foldl_size_file, Nat.zero_add]
    rfl
  · show entries.length - (entries.filter fun e => e.type == "file").length
        + (entries.filter fun e => e.type == "file").length = entries.length
    exact Nat.sub_add_cancel (List.length_filter_le _ _)

/-- Claim C6: when the first attempt of the wrapped operation raises a
permanent client ApiError, _api_call propagates it at once: exactly one
attempt, no retry, no backoff sleep; in particular this covers an
operation that would keep failing permanently on all budgeted
attempts. -/
theorem permanent_error_no_retry :
    ∀ op : Nat → Outcome, op 0 = Outcome.apiError →
      apiCall op = { result := .apiFatal, attempts := 1, sleeps := [] } := by
  intro op h
  simp [apiCall, apiCallAux, h]

/-- Witness for claim C6 at the operation that fails permanently on every
attempt. -/
theorem permanent_error_no_retry_witness :
    apiCall (fun _ => Outcome.apiError)
      = { result := .apiFatal, attempts := 1, sleeps := [] } :=
  permanent_error_no_retry (fun _ => Outcome.apiError) rfl

/-- Claim C8 counterexample: the folder with display path /A is recorded
with folder_depth 1, not the value 0 that the claim (depth equals number
of path segments minus one, so /A has depth 0) asserts. -/
theorem depth_off_by_one :
    (processEntry (Metadata.folder "A" "/A" "/a" "id1")).map (fun e => e.folder_depth)
        = some 1 ∧
    ¬ ((processEntry (Metadata.folder "A" "/A" "/a" "id1")).map (fun e => e.folder_depth)
        = some (((pySplit '/' "/A").filter fun s => !(s == "")).length - 1)) := by
  decide

/-- Claim C8 (amended): for an absolute path, whose split on the slash is
an empty first piece followed by the nonempty segments, the recorded
folder_depth equals the number of path segments (not segments minus one):
folder /A gets depth 1, file /A/f.txt depth 2, file /B.txt depth 1. -/
theorem depth_counts_segments :
    ∀ (nm p pl rv did : String) (sz : Nat) (sm ch : Option String)
      (t : List String),
      pySplit '/' p = "" :: t →
      t.all (fun s => !(s == "")) = true →
      ((processEntry (Metadata.file nm p pl sz sm ch rv did)).map
            (fun e => e.folder_depth) = some t.length ∧
        (processEntry (Metadata.folder nm p pl did)).map
            (fun e => e.folder_depth) = some t.length ∧
        t.length = ((pySplit '/' p).filter fun s => !(s == "")).length) := by
  intro nm p pl rv did sz sm ch t h1 h2
  have hall : ∀ s ∈ t, (!(s == "")) = true := by
    intro s hs
    exact List.all_eq_true.mp h2 s hs
  have hfilter : (pySplit '/' p).filter (fun s => !(s == "")) = t := by
    rw [h1, List.filter_cons]
    rw [show (!(("" : String) == "")) = false from rfl]
    simp only [Bool.false_eq_true, if_false]
    exact List.filter_eq_self.mpr hall
  refine ⟨?_, ?_, ?_⟩
  · show some ((pySplit '/' p).length - 1) = some t.length
    rw [h1]
    simp
  · show some ((pySplit '/' p).length - 1) = some t.length
    rw [h1]
    simp
  · rw [hfilter]

/-- Witness for claim C8 (amended) at the path /A/f.txt, whose two
segments give depth 2. -/
theorem depth_counts_segments_witness :
    pySplit '/' "/A/f.txt" = "" :: ["A", "f.txt"] ∧
    (processEntry (Metadata.file "f.txt" "/A/f.txt" "/a/f.txt" 1024 none none "r1" "d1")).map
        (fun e => e.folder_depth) = some 2 :=
  ⟨rfl,
    (depth_counts_segments "f.txt" "/A/f.txt" "/a/f.txt" "r1" "d1" 1024 none none
      ["A", "f.txt"] rfl rfl).1⟩

/-- Claim C10: with both the legacy checkpoint and the hybrid checkpoint
present and parsed, _load_old_progress assigns cursor, has_more and
api_calls from the hybrid checkpoint last, so its values override the
legacy ones regardless of the legacy files; and with the hybrid inventory
also present, the state equals the one loaded with no legacy files at
all, the entries being exactly the hybrid entries inserted into an empty
store. -/
theorem hybrid_checkpoint_priority :
    ∀ (ocp : LegacyCheckpoint) (oinv : Option (List Entry)) (hcp : HCheckpoint)
      (hinv : Option (List Entry)),
      ((loadOldProgress (some ocp) oinv (some hcp) hinv hybridInit).1 = true ∧
        (loadOldProgress (some ocp) oinv (some hcp) hinv hybridInit).2.cursor
          = hcp.cursor ∧
        (loadOldProgress (some ocp) oinv (some hcp) hinv hybridInit).2.has_more
          = hcp.has_more ∧
        (loadOldProgress (some ocp) oinv (some hcp) hinv hybridInit).2.api_calls
          = hcp.api_calls) ∧
      (∀ hi : List Entry,
        loadOldProgress (some ocp) oinv (some hcp) (some hi) hybridInit
          = loadOldProgress none none (some hcp) (some hi) hybridInit ∧
        (loadOldProgress (some ocp) oinv (some hcp) (some hi) hybridInit).2.entries
          = (addEntries hybridInit hi).entries) := by
  intro ocp oinv hcp hinv
  constructor
  · cases oinv with
    | none =>
        cases hinv with
        | none => exact ⟨rfl, rfl, rfl, rfl⟩
        | some hi =>
            have h := addEntries_control hi
              { entries := [], entries_by_path := [], cursor := hcp.cursor,
                has_more := hcp.has_more, api_calls := hcp.api_calls }
            exact ⟨rfl, h.1, h.2.1, h.2.2⟩
    | some oes =>
        cases hinv with
        | none => exact ⟨rfl, rfl, rfl, rfl⟩
        | some hi =>
            have h := addEntries_control hi
              { entries := [], entries_by_path := [], cursor := hcp.cursor,
                has_more := hcp.has_more, api_calls := hcp.api_calls }
            exact ⟨rfl, h.1, h.2.1, h.2.2⟩
  · intro hi
    constructor
    · cases oinv <;> rfl
    · cases oinv with
      | none =>
          exact addEntries_store_eq hi
            { entries := [], entries_by_path := [], cursor := hcp.cursor,
              has_more := hcp.has_more, api_calls := hcp.api_calls }
            hybridInit rfl rfl
      | some oes =>
          exact addEntries_store_eq hi
            { entries := [], entries_by_path := [], cursor := hcp.cursor,
              has_more := hcp.has_more, api_calls := hcp.api_calls }
            hybridInit rfl rfl

/-! ## Dedup store lemmas and claim C2 -/

/-- Looking a key up in an appended association list falls through to the
second list when the first does not hold the key. -/
theorem lookup_append_of_none (a : String) (l1 l2 : List (String × Entry))
    (h : l1.lookup a = none) : (l1 ++ l2).lookup a = l2.lookup a := by
  induction l1 with
  | nil => rfl
  | cons kv t ih =>
      obtain ⟨k, v⟩ := kv
      cases hk : (a == k) with
      | true => simp [List.lookup, hk] at h
      | false =>
          simp only [List.lookup, hk] at h
          simp only [List.cons_append, List.lookup, hk]
          exact ih h

/-- A key that lookup does not find is not among the stored keys. -/
theorem lookup_none_not_mem (a : String) (l : List (String × Entry))
    (h : l.lookup a = none) : a ∉ l.map Prod.fst := by
  induction l with
  | nil => simp
  | cons kv t ih =>
      obtain ⟨k, v⟩ := kv
      cases hk : (a == k) with
      | true => simp [List.lookup, hk] at h
      | false =>
          simp only [List.lookup, hk] at h
          have hka : a ≠ k := beq_eq_false_iff_ne.mp hk
          simp only [List.map_cons, List.mem_cons]
          intro hc
          rcases hc with hc | hc
          · exact hka hc
          · exact ih h hc

/-- Invariant of the hybrid dedup store: the entry list and the dict hold
the same paths in the same order, without duplicates. -/
def storeInv (st : HybridState) : Prop :=
  st.entries.map (fun e => e.path) = st.entries_by_path.map Prod.fst ∧
    (st.entries_by_path.map Prod.fst).Nodup

/-- One _add_entry call preserves the store invariant. -/
theorem addEntry_inv (st : HybridState) (e : Option Entry) (h : storeInv st) :
    storeInv (addEntry st e).2 := by
  cases e with
  | none => exact h
  | some e =>
      cases hl : st.entries_by_path.lookup e.path with
      | some v => simpa [addEntry, hl] using h
      | none =>
          have hred : (addEntry st (some e)).2
              = { st with
                  entries := st.entries ++ [e]
                  entries_by_path := st.entries_by_path ++ [(e.path, e)] } := by
            simp [addEntry, hl]
          rw [hred]
          unfold storeInv
          constructor
          · simp [h.1]
          · simp only [List.map_append]
            rw [List.nodup_append]
            refine ⟨h.2, List.nodup_singleton _, ?_⟩
            intro a ha hb
            simp only [List.map_cons, List.map_nil, List.mem_singleton] at hb
            rw [hb] at ha
            exact lookup_none_not_mem e.path st.entries_by_path hl ha

/-- Any sequence of _add_entry calls preserves the store invariant. -/
theorem foldl_addEntry_inv (es : List (Option Entry)) :
    ∀ st : HybridState, storeInv st →
      storeInv (es.foldl (fun st e => (addEntry st e).2) st) := by
  induction es with
  | nil => intro st h; exact h
  | cons e t ih =>
      intro st h
      exact ih (addEntry st e).2 (addEntry_inv st e h)

/-- Claim C2: _add_entry returns True and appends the entry when its path
is absent, returns False and leaves the store untouched when the path is
present (so every aggregate recomputed from the store is unchanged), a
repeated insert of the same entry is absorbed, and after any sequence of
inserts into the initially empty store the paths of the stored entries
are pairwise distinct. -/
theorem dedup_insert_idempotent :
    (∀ (st : HybridState) (e : Entry), st.entries_by_path.lookup e.path = none →
        addEntry st (some e)
          = (true,
              { st with
                entries := st.entries ++ [e]
                entries_by_path := st.entries_by_path ++ [(e.path, e)] })) ∧
    (∀ (st : HybridState) (e : Entry),
        (st.entries_by_path.lookup e.path).isSome = true →
        addEntry st (some e) = (false, st)) ∧
    (∀ (st : HybridState) (e : Entry),
        addEntry (addEntry st (some e)).2 (some e) = (false, (addEntry st (some e)).2)) ∧
    (∀ es : List (Option Entry),
        ((es.foldl (fun st e => (addEntry st e).2) hybridInit).entries.map
            (fun e => e.path)).Nodup) := by
  refine ⟨?_, ?_, ?_, ?_⟩
  · intro st e h
    simp [addEntry, h]
  · intro st e h
    cases hl : st.entries_by_path.lookup e.path with
    | none => rw [hl] at h; simp at h
    | some v => simp [addEntry, hl]
  · intro st e
    cases hl : st.entries_by_path.lookup e.path with
    | some v => simp [addEntry, hl]
    | none =>
        have h2 : ((st.entries_by_path ++ [(e.path, e)]).lookup e.path) = some e := by
          rw [lookup_append_of_none e.path st.entries_by_path _ hl]
          simp [List.lookup]
        simp [addEntry, hl, h2]
  · intro es
    have h := foldl_addEntry_inv es hybridInit ⟨rfl, List.nodup_nil⟩
    rw [h.1]
    exact h.2

/-- A concrete entry used to exercise the dedup store. -/
def sampleEntry : Entry :=
  { type := "file", name := "f.txt", path := "/f.txt", path_lower := "/f.txt",
    extension := some ".txt", size_bytes := 10, modified := none,
    content_hash := none, revision := some "r1", dropbox_id := "d1",
    folder_depth := 1, parent_folder := "/" }

/-- Witness for claim C2 at a concrete entry: the first insert into the
empty store succeeds and appends, the second returns False and changes
nothing, and double insertion leaves the path list duplicate-free. -/
theorem dedup_insert_idempotent_witness :
    addEntry hybridInit (some sampleEntry)
      = (true,
          { hybridInit with
            entries := hybridInit.entries ++ [sampleEntry]
            entries_by_path := hybridInit.entries_by_path
              ++ [(sampleEntry.path, sampleEntry)] }) ∧
    addEntry (addEntry hybridInit (some sampleEntry)).2 (some sampleEntry)
      = (false, (addEntry hybridInit (some sampleEntry)).2) ∧
    (([some sampleEntry, some sampleEntry].foldl
        (fun st e => (addEntry st e).2) hybridInit).entries.map
          (fun e => e.path)).Nodup :=
  ⟨dedup_insert_idempotent.1 hybridInit sampleEntry rfl,
    dedup_insert_idempotent.2.1 (addEntry hybridInit (some sampleEntry)).2
      sampleEntry rfl,
    dedup_insert_idempotent.2.2.2 [some sampleEntry, some sampleEntry]⟩

/-! ## Retry budget lemmas and claims C7, C9 -/

/-- The attempt counter of the retry loop never exceeds the input counter
plus the remaining budget. -/
theorem apiCallAux_attempts_le (op : Nat → Outcome) :
    ∀ (fuel attempt attempts : Nat) (sleeps : List Nat),
      (apiCallAux op attempt fuel attempts sleeps).attempts ≤ attempts + fuel := by
  intro fuel
  induction fuel with
  | zero => intro attempt attempts sleeps; simp [apiCallAux]
  | succ f ih =>
      intro attempt attempts sleeps
      cases h : op attempt with
      | success => simp [apiCallAux, h]
      | apiError => simp [apiCallAux, h]
      | rateLimited b =>
          have := ih (attempt + 1) (attempts + 1) (sleeps ++ [rateLimitWait b attempt])
          simp only [apiCallAux, h]
          omega
      | serverError =>
          have := ih (attempt + 1) (attempts + 1) (sleeps ++ [2 ^ attempt])
          simp only [apiCallAux, h]
          omega

/-- When every budgeted attempt is retryable, the retry loop spends its
whole budget and reports exhaustion. -/
theorem apiCallAux_all_retryable (op : Nat → Outcome) :
    ∀ (fuel attempt attempts : Nat) (sleeps : List Nat),
      (∀ k, attempt ≤ k → k < attempt + fuel → isRetryable (op k) = true) →
      (apiCallAux op attempt fuel attempts sleeps).result = CallOutcome.maxRetries ∧
        (apiCallAux op attempt fuel attempts sleeps).attempts = attempts + fuel := by
  intro fuel
  induction fuel with
  | zero => intro attempt attempts sleeps _; exact ⟨rfl, rfl⟩
  | succ f ih =>
      intro attempt attempts sleeps h
      have ha : isRetryable (op attempt) = true := h attempt le_rfl (by omega)
      cases hop : op attempt with
      | success => rw [hop] at ha; exact absurd ha (by decide)
      | apiError => rw [hop] at ha; exact absurd ha (by decide)
      | rateLimited b =>
          have hr := ih (attempt + 1) (attempts + 1) (sleeps ++ [rateLimitWait b attempt])
            (fun k hk1 hk2 => h k (by omega) (by omega))
          constructor
          · simp only [apiCallAux, hop]
            exact hr.1
          · simp only [apiCallAux, hop]
            omega
      | serverError =>
          have hr := ih (attempt + 1) (attempts + 1) (sleeps ++ [2 ^ attempt])
            (fun k hk1 hk2 => h k (by omega) (by omega))
          constructor
          · simp only [apiCallAux, hop]
            exact hr.1
          · simp only [apiCallAux, hop]
            omega

/-- The last element of a list extended by two elements is the second of
the two. -/
theorem getLast_append_two {α : Type} (l : List α) (a b : α) :
    (l ++ [a, b]).getLast? = some b := by
  rw [List.getLast?_append]
  rfl

/-- Claim C7 counterexample: in the legacy run, a pagination fetch that
exhausts its five attempts makes the run abort through the uncaught
RuntimeError with an empty save-event trace: no checkpoint is saved on
that error path (here with no periodic save tick having fired), which
refutes the clause that a checkpoint is saved before the run aborts. -/
theorem legacy_abort_without_save :
    legacyRunE (fun _ => false) legacyInit [FetchStep.fail 5]
      = Except.error ({ legacyInit with api_calls := 5 }, ([] : List RunEvent)) := rfl

/-- Claim C7 (amended): _api_call makes at most 5 attempts, and when all
five fail with retryable errors it reports retries exhausted after
exactly 5 attempts; in the hybrid script the pagination loop catches the
fatal error and the run still ends with a checkpoint-and-inventory save,
while the legacy run propagates the error without saving (see the
counterexample). -/
theorem retry_budget_spec :
    (∀ op : Nat → Outcome, (apiCall op).attempts ≤ 5) ∧
    (∀ op : Nat → Outcome,
        (∀ k, k < 5 → isRetryable (op k) = true) →
        (apiCall op).result = CallOutcome.maxRetries ∧ (apiCall op).attempts = 5) ∧
    (∀ (tick : Nat → Bool) (st : HybridState) (steps : List FetchStep),
        (hybridRunResumed tick st steps).2.getLast? = some RunEvent.savedInventory ∧
        RunEvent.savedCheckpoint ∈ (hybridRunResumed tick st steps).2) := by
  refine ⟨?_, ?_, ?_⟩
  · intro op
    simpa [apiCall] using apiCallAux_attempts_le op 5 0 0 []
  · intro op h
    have hr := apiCallAux_all_retryable op 5 0 0 [] (fun k hk1 hk2 => h k (by omega))
    simpa [apiCall] using hr
  · intro tick st steps
    constructor
    · exact getLast_append_two (hybridLoopE tick st 0 steps).2
        RunEvent.savedCheckpoint RunEvent.savedInventory
    · simp [hybridRunResumed]

/-- Witness for claim C7 (amended) at an operation failing with server
errors on every attempt and at a hybrid run whose only fetch fails. -/
theorem retry_budget_spec_witness :
    (apiCall (fun _ => Outcome.serverError)).attempts ≤ 5 ∧
    (apiCall (fun _ => Outcome.serverError)).result = CallOutcome.maxRetries ∧
    (hybridRunResumed (fun _ => false) hybridInit [FetchStep.fail 5]).2.getLast?
      = some RunEvent.savedInventory :=
  ⟨retry_budget_spec.1 (fun _ => Outcome.serverError),
    (retry_budget_spec.2.1 (fun _ => Outcome.serverError) (fun _ _ => rfl)).1,
    (retry_budget_spec.2.2 (fun _ => false) hybridInit [FetchStep.fail 5]).1⟩

/-- Claim C9: in the root-set check, every live root folder path absent
from the inventory depth-1 folders lands in the missing set and makes the
issue list non-empty, while an inventory path absent from the live
listing only lands in the extra set, never in the missing set, and the
issue list is empty exactly when the missing set is, independently of the
extra set; the check reads the entries and builds reports only. -/
theorem root_set_check_asymmetry :
    ∀ (api : List String) (entries : List Entry),
      (∀ p, p ∈ api → p ∉ invRootPaths entries →
          p ∈ rootSetMissing api entries ∧ verifierIssues api entries ≠ []) ∧
      (∀ q, q ∈ invRootPaths entries → q ∉ api →
          q ∈ rootSetExtra api entries ∧ q ∉ rootSetMissing api entries) ∧
      (verifierIssues api entries = [] ↔ rootSetMissing api entries = []) := by
  intro api entries
  have hiss : ∀ l : List Entry, rootSetMissing api l ≠ [] → verifierIssues api l ≠ [] := by
    intro l hne
    unfold verifierIssues
    cases hie : (rootSetMissing api l).isEmpty with
    | true => exact absurd (List.isEmpty_iff.mp hie) hne
    | false => simp
  refine ⟨?_, ?_, ?_⟩
  · intro p hp hnp
    have hm : p ∈ rootSetMissing api entries := by
      unfold rootSetMissing
      rw [List.mem_filter]
      refine ⟨hp, ?_⟩
      simp [hnp]
    exact ⟨hm, hiss entries (List.ne_nil_of_mem hm)⟩
  · intro q hq hnq
    constructor
    · unfold rootSetExtra
      rw [List.mem_filter]
      refine ⟨hq, ?_⟩
      simp [hnq]
    · unfold rootSetMissing
      rw [List.mem_filter]
      intro hc
      exact hnq hc.1
  · constructor
    · intro hz
      by_contra hne
      exact (hiss entries hne) hz
    · intro hz
      unfold verifierIssues
      rw [hz]
      rfl

/-! ## Resume equivalence (claim C1) -/

/-- Key pagination lemma: restarting the continue loop at position n from
the in-memory state reached after n pages drives the run to the same
final state as after all pages. -/
theorem runLoop_from (pages : List (List Metadata)) :
    ∀ (k n : Nat), n + k = pages.length → 1 ≤ n →
      runLoop (stateAfterN pages n) n (pages.drop n) = stateAfterN pages pages.length := by
  intro k
  induction k with
  | zero =>
      intro n hnk h1
      have hn : n = pages.length := by omega
      subst hn
      rw [List.drop_eq_nil_of_le le_rfl]
      rfl
  | succ kk ih =>
      intro n hnk h1
      have hlt : n < pages.length := by omega
      obtain ⟨m, rfl⟩ : ∃ m, n = m + 1 := ⟨n - 1, by omega⟩
      have hm : (stateAfterN pages (m + 1)).has_more = true := by
        show decide (m + 1 < pages.length) = true
        simpa using hlt
      rw [List.drop_eq_getElem_cons hlt]
      rw [runLoop]
      rw [hm]
      simp only [if_true]
      have hb : (!(pages.drop (m + 1 + 1)).isEmpty) = decide (m + 1 + 1 < pages.length) := by
        rcases Nat.lt_or_ge (m + 1 + 1) pages.length with hc | hc
        · rw [List.drop_eq_getElem_cons hc]
          simp [hc]
        · rw [List.drop_eq_nil_of_le hc]
          simp [Nat.not_lt.mpr hc]
      have hstep : stepPage (stateAfterN pages (m + 1)) (m + 1) (pages[m + 1])
            (!(pages.drop (m + 1 + 1)).isEmpty)
          = stateAfterN pages (m + 1 + 1) := by
        rw [hb]
        show _ = stepPage (stateAfterN pages (m + 1)) (m + 1) (pagesAt pages (m + 1))
          (decide (m + 1 + 1 < pages.length))
        rw [show pagesAt pages (m + 1) = pages[m + 1] from List.getD_eq_getElem pages [] hlt]
      rw [hstep]
      exact ih (m + 1 + 1) (by omega) (by omega)

/-- Claim C1: for every page sequence, running the legacy enumerator to
completion in one pass produces the same entries and the same saved
inventory (summary included) as interrupting it after n pages, saving
checkpoint and inventory at that point, and resuming from the saved
checkpoint to completion.  The proof gives equality of the full entry
lists, which implies the order-independent set equality of the claim. -/
theorem resume_equivalence :
    ∀ (pages : List (List Metadata)) (n : Nat),
      pages ≠ [] → 1 ≤ n → n ≤ pages.length →
      ((legacyRunComplete true (some (saveCheckpoint (stateAfterN pages n)))
            (some (saveInventory (stateAfterN pages n))) pages).entries
          = (legacyRunComplete false none none pages).entries ∧
        saveInventory
            (legacyRunComplete true (some (saveCheckpoint (stateAfterN pages n)))
              (some (saveInventory (stateAfterN pages n))) pages)
          = saveInventory (legacyRunComplete false none none pages)) := by
  intro pages n hne h1 hn
  have hone : legacyRun false none none pages = stateAfterN pages pages.length := by
    obtain ⟨first, rest, rfl⟩ : ∃ f r, pages = f :: r := by
      cases pages with
      | nil => exact absurd rfl hne
      | cons f r => exact ⟨f, r, rfl⟩
    have hb : (!rest.isEmpty) = decide (0 + 1 < (first :: rest).length) := by
      cases rest with
      | nil => rfl
      | cons a t => simp
    show runLoop (stepPage legacyInit 0 first (!rest.isEmpty)) 1 rest
        = stateAfterN (first :: rest) (first :: rest).length
    rw [hb]
    exact runLoop_from (first :: rest) rest.length 1
      (by rw [List.length_cons]; omega) le_rfl
  have hres : legacyRun true (some (saveCheckpoint (stateAfterN pages n)))
      (some (saveInventory (stateAfterN pages n))) pages
        = stateAfterN pages pages.length := by
    obtain ⟨m, rfl⟩ : ∃ m, n = m + 1 := ⟨n - 1, by omega⟩
    show runLoop (stateAfterN pages (m + 1)) (m + 1) (pages.drop (m + 1))
        = stateAfterN pages pages.length
    exact runLoop_from pages (pages.length - (m + 1)) (m + 1) (by omega) h1
  constructor
  · simp [legacyRunComplete, hone, hres]
  · simp [legacyRunComplete, hone, hres]

/-- First listing page of the end-to-end scenario: folder /A and file
/A/f.txt of 1024 bytes. -/
def pageOne : List Metadata :=
  [Metadata.folder "A" "/A" "/a" "dA",
    Metadata.file "f.txt" "/A/f.txt" "/a/f.txt" 1024 none none "r1" "d1"]

/-- Second listing page of the end-to-end scenario: file /B.txt of 2048
bytes. -/
def pageTwo : List Metadata :=
  [Metadata.file "B.txt" "/B.txt" "/b.txt" 2048 none none "r2" "d2"]

/-- Witness for claim C1 on the two-page scenario, interrupting after the
first page. -/
theorem resume_equivalence_witness :
    ([pageOne, pageTwo] : List (List Metadata)) ≠ [] ∧ 1 ≤ 1 ∧
      1 ≤ ([pageOne, pageTwo] : List (List Metadata)).length ∧
      ((legacyRunComplete true
            (some (saveCheckpoint (stateAfterN [pageOne, pageTwo] 1)))
            (some (saveInventory (stateAfterN [pageOne, pageTwo] 1)))
            [pageOne, pageTwo]).entries
          = (legacyRunComplete false none none [pageOne, pageTwo]).entries ∧
        saveInventory
            (legacyRunComplete true
              (some (saveCheckpoint (stateAfterN [pageOne, pageTwo] 1)))
              (some (saveInventory (stateAfterN [pageOne, pageTwo] 1)))
              [pageOne, pageTwo])
          = saveInventory (legacyRunComplete false none none [pageOne, pageTwo])) :=
  ⟨by decide, by decide, by decide,
    resume_equivalence [pageOne, pageTwo] 1 (by decide) (by decide) (by decide)⟩

/-- Inventory folder entry for /A at depth 1, as the verifier reads it. -/
def vFolderA : Entry :=
  { type := "folder", name := "A", path := "/A", path_lower := "/a",
    extension := none, size_bytes := 0, modified := none, content_hash := none,
    revision := none, dropbox_id := "dA", folder_depth := 1, parent_folder := "/" }

/-- Inventory folder entry for /B at depth 1, as the verifier reads it. -/
def vFolderB : Entry :=
  { type := "folder", name := "B", path := "/B", path_lower := "/b",
    extension := none, size_bytes := 0, modified := none, content_hash := none,
    revision := none, dropbox_id := "dB", folder_depth := 1, parent_folder := "/" }

/-- Inventory folder entry for /D at depth 1, present only in the
inventory. -/
def vFolderD : Entry :=
  { type := "folder", name := "D", path := "/D", path_lower := "/d",
    extension := none, size_bytes := 0, modified := none, content_hash := none,
    revision := none, dropbox_id := "dD", folder_depth := 1, parent_folder := "/" }

/-- Witness for claim C9 on the scenario with live roots /A, /B, /C and
inventory roots /A, /B, /D: the live-only /C is reported missing with a
non-empty issue list, while the inventory-only /D is only flagged as
extra and never counted missing. -/
theorem root_set_check_asymmetry_witness :
    "/C" ∈ rootSetMissing ["/A", "/B", "/C"] [vFolderA, vFolderB, vFolderD] ∧
    verifierIssues ["/A", "/B", "/C"] [vFolderA, vFolderB, vFolderD] ≠ [] ∧
    "/D" ∈ rootSetExtra ["/A", "/B", "/C"] [vFolderA, vFolderB, vFolderD] ∧
    "/D" ∉ rootSetMissing ["/A", "/B", "/C"] [vFolderA, vFolderB, vFolderD] :=
  ⟨((root_set_check_asymmetry ["/A", "/B", "/C"] [vFolderA, vFolderB, vFolderD]).1
      "/C" (by decide) (by decide)).1,
    ((root_set_check_asymmetry ["/A", "/B", "/C"] [vFolderA, vFolderB, vFolderD]).1
      "/C" (by decide) (by decide)).2,
    ((root_set_check_asymmetry ["/A", "/B", "/C"] [vFolderA, vFolderB, vFolderD]).2.1
      "/D" (by decide) (by decide)).1,
    ((root_set_check_asymmetry ["/A", "/B", "/C"] [vFolderA, vFolderB, vFolderD]).2.1
      "/D" (by decide) (by decide)).2⟩
